import Mathlib

/-!
Formal model of the audio admission logic of the `anti-yapper` repository.

The modelled code is `src/gui.py`, class `SummarizationThread`, method
`run` (lines 85-301): the size-based dispatch that splits a single
oversized audio file into time chunks, merges several small files, or
passes files through unchanged; the transcription loop with its progress
events; and the `finally` teardown of temporary files.  Sizes are byte
counts (`os.path.getsize`), durations are milliseconds (`len(audio)` in
pydub).  External collaborators (pydub decoding/export, the Whisper and
Gemini network calls, temporary-file deletion) are modelled through an
environment of failure flags; everything the Python code computes itself
(arithmetic, branching, event ordering, bookkeeping of temporary files)
is translated directly.

The upload-deduplication coordinator described in the design document has
no implementation in `src/`; it is modelled from the specification text
further below, and is clearly marked as such.
-/

/-- The hard per-request size ceiling:
`WHISPER_API_LIMIT_BYTES = 24 * 1024 * 1024` (`gui.py` line 37). -/
def WHISPER_API_LIMIT_BYTES : Nat := 24 * 1024 * 1024

/-- A local audio file as the pipeline observes it: its (base)name, its byte
size (`os.path.getsize`, line 112/152) and its duration in milliseconds
(`duration_ms = len(audio)`, line 125). -/
structure AudioFile where
  path : String
  size : Nat
  durationMs : Nat
deriving DecidableEq, Repr

/-- One planned time interval `[startMs, endMs)` of the source audio
(`chunk = audio[start_ms:end_ms]`, lines 134-135; pydub clamps the slice at
the end of the audio). -/
structure Chunk where
  startMs : Nat
  endMs : Nat
deriving DecidableEq, Repr

/-- Python `range(0, stop, step)` for `step > 0`: the values `i * step`
strictly below `stop`; there are `⌈stop / step⌉` of them. -/
def pyRange (stop step : Nat) : List Nat :=
  (List.range ((stop + step - 1) / step)).map (fun i => i * step)

/-- Message of the `ValueError` Python raises for `range(0, d, 0)`
(reached at line 132 when the computed chunk duration is zero). -/
def zeroStepMsg : String := "range() arg 3 must not be zero"

/-- `chunk_duration_ms = math.floor((duration_ms * WHISPER_API_LIMIT_BYTES)
/ file_size)` (lines 127-129); on naturals `math.floor` of the true-division
is floor division. -/
def chunkDurationMs (durationMs size : Nat) : Nat :=
  durationMs * WHISPER_API_LIMIT_BYTES / size

/-- The chunk intervals built by the split loop (lines 131-135): one chunk
`audio[start_ms : start_ms + chunk_duration_ms]` for each
`start_ms in range(0, duration_ms, chunk_duration_ms)`, the final slice
clamped at the end of the audio. -/
def chunkList (durationMs size : Nat) : List Chunk :=
  (pyRange durationMs (chunkDurationMs durationMs size)).map
    (fun s => ⟨s, min (s + chunkDurationMs durationMs size) durationMs⟩)

/-- The split step for a single file (lines 124-146): either the chunk
intervals, or the `range` zero-step `ValueError` when the computed chunk
duration is `0`. -/
def splitOversized (durationMs size : Nat) : Except String (List Chunk) :=
  if chunkDurationMs durationMs size = 0 then Except.error zeroStepMsg
  else Except.ok (chunkList durationMs size)

/-- One entry of `files_to_process`: an original input path (pass-through,
lines 118 and 188), a re-encoded temporary chunk of the single oversized
input (line 141), or the merged re-encoded payload of all inputs
(line 174). -/
inductive PlanItem where
  | original (path : String)
  | tempChunk (startMs endMs : Nat)
  | merged (paths : List String)
deriving DecidableEq, Repr

/-- The `ValueError` message raised at lines 154-156. -/
def oversizedMsg (path : String) : String :=
  "File " ++ path ++
    " is larger than 25MB. Processing multiple files where one is oversized is not supported."

/-- The size-check loop of the multi-file branch (lines 150-157): raises on
the first input strictly over the limit, otherwise totals the sizes. -/
def totalSizeChecked : List AudioFile → Except String Nat
  | [] => Except.ok 0
  | f :: fs =>
      if WHISPER_API_LIMIT_BYTES < f.size then Except.error (oversizedMsg f.path)
      else (totalSizeChecked fs).map (fun total => f.size + total)

/-- Outcome of the file-processing dispatch: the progress events it emitted
(line 123 emits `15`, line 163 emits `20`) and either the resulting
`files_to_process` list or the exception it raised. -/
structure PlanOut where
  events : List Nat
  result : Except String (List PlanItem)
deriving Repr

/-- The file-processing dispatch of `run` (lines 106-188).  A single file
under the limit passes through (lines 110-118); a single file at or over the
limit is split (lines 119-146, emitting progress `15`); for several files the
sizes are checked and totalled (lines 149-157), then either all files are
merged into one re-encoded payload (lines 159-178, emitting progress `20`)
or each passes through in order (lines 179-188). -/
def planAudio (merge : Bool) (fs : List AudioFile) : PlanOut :=
  match fs with
  | [] => ⟨[], Except.ok []⟩
  | [f] =>
      if f.size < WHISPER_API_LIMIT_BYTES then
        ⟨[], Except.ok [PlanItem.original f.path]⟩
      else
        match splitOversized f.durationMs f.size with
        | Except.error e => ⟨[15], Except.error e⟩
        | Except.ok cs =>
            ⟨[15], Except.ok (cs.map (fun c => PlanItem.tempChunk c.startMs c.endMs))⟩
  | f1 :: f2 :: rest =>
      match totalSizeChecked (f1 :: f2 :: rest) with
      | Except.error e => ⟨[], Except.error e⟩
      | Except.ok total =>
          if total < WHISPER_API_LIMIT_BYTES ∧ merge = true then
            ⟨[20], Except.ok [PlanItem.merged ((f1 :: f2 :: rest).map AudioFile.path)]⟩
          else
            ⟨[], Except.ok ((f1 :: f2 :: rest).map (fun f => PlanItem.original f.path))⟩

/-- Whether a produced plan contains a merged payload. -/
def hasMergedPayload (p : PlanOut) : Bool :=
  match p.result with
  | Except.ok items =>
      items.any (fun i => match i with | PlanItem.merged _ => true | _ => false)
  | Except.error _ => false

/-- Whether the dispatch raised, aborting the batch. -/
def planAborts (p : PlanOut) : Bool :=
  match p.result with
  | Except.error _ => true
  | Except.ok _ => false

example :
    (planAudio true [⟨"a.mp3", 100, 1000⟩]).result
      = Except.ok [PlanItem.original "a.mp3"] := rfl

example :
    (planAudio true [⟨"a.mp3", 100, 1000⟩, ⟨"b.mp3", 200, 1000⟩]).result
      = Except.ok [PlanItem.merged ["a.mp3", "b.mp3"]] := rfl

/-- Outcomes of the external collaborators consumed by one `run` invocation:
whether the pydub export of the k-th temporary audio file raises
(`chunk.export`, line 140, or the merged export, lines 171-173 — this runs
after the temp file itself is created at lines 137-139/168-170 and before it
is registered for cleanup at line 142/175), whether the Whisper call for
unit `i` of the transcription loop raises (lines 203-230), whether saving
the transcription temp file raises (its local `try`, lines 246-256), whether
the Gemini call raises (lines 261-264), and whether `os.remove` raises for a
given temporary file (lines 290-294). -/
structure Env where
  exportFails : Nat → Bool
  transcribeFails : Nat → Bool
  saveTranscriptionFails : Bool
  summarizeFails : Bool
  deleteFails : Nat → Bool

/-- The transcription loop (lines 195-236) over `num` planning units,
starting at index `i` with `rem` units left: each iteration first emits
progress `25 + int((55 / num_files) * index)` (line 201, modelled with floor
division — the float product is monotone and bounded the same way), then
performs the Whisper call, which may raise.  Returns the emitted events and
whether the loop completed. -/
def transcribeLoop (tf : Nat → Bool) (num : Nat) : Nat → Nat → List Nat × Bool
  | _, 0 => ([], true)
  | i, rem + 1 =>
      let ev := 25 + 55 * i / num
      if tf i then ([ev], false)
      else
        let r := transcribeLoop tf num (i + 1) rem
        (ev :: r.1, r.2)

/-- Number of temporary audio files the dispatch will try to materialize:
one per non-pass-through item — the chunk files (lines 137-142) and the
merged file (lines 168-175); pass-through originals create none. -/
def tempCount (items : List PlanItem) : Nat :=
  (items.filter (fun i => match i with | PlanItem.original _ => false | _ => true)).length

/-- The materialization of the `n` temporary audio files of a plan, starting
at index `i`.  For each file the source first creates the named temporary
file on disk (`tempfile.NamedTemporaryFile(delete=False)`, line 137 / 168),
then runs the fallible pydub export into it (line 140 / 171-173), and only
then appends it to `temp_files_to_clean` (line 142 / 175).  An export
failure therefore leaves the just-created file on disk but unregistered, and
raises.  Returns `(created, registered, completed)`. -/
def exportLoop (ef : Nat → Bool) : Nat → Nat → Nat × Nat × Bool
  | i, 0 => (i, i, true)
  | i, rem + 1 =>
      if ef i then (i + 1, i, false)
      else exportLoop ef (i + 1) rem

/-- State of the `try`/`except` body of `run` just before the `finally`
teardown: the progress events emitted so far (a trailing `0` on the failure
path, line 286), the number of temporary audio files created on disk, the
number of them registered in `temp_files_to_clean` (an export failure leaves
`created = registered + 1`), whether an exception was caught
(`error_occurred` emitted, line 285), whether `summary_finished` was emitted
(lines 270/276), and the temporary transcription file if one was created
(identified as the id one past the audio temp ids; created with
`delete=False` and never registered for cleanup, lines 247-251). -/
structure PreTeardown where
  events : List Nat
  created : Nat
  registered : Nat
  failed : Bool
  summaryEmitted : Bool
  transFile : Option Nat
deriving Repr

/-- The `try`/`except` body of `run` (lines 92-286), without the `finally`
teardown.  Follows the source control flow: emit `10` (line 104), plan the
files (lines 106-188), emit `25` (line 190), run the transcription loop
(lines 195-236), emit `80` (line 243), save the transcription to a
`delete=False` temporary file under a local `try` that only logs on failure
(lines 245-256), then either emit the placeholder summary (transcription-only
mode, lines 271-277) or call Gemini, emit `90` and the summary (lines
259-270), and finally emit `100` (line 279).  Any raise lands in the
`except` clause, which emits `error_occurred` and progress `0`
(lines 282-286). -/
def preRun (fs : List AudioFile) (merge tOnly : Bool) (env : Env) : PreTeardown :=
  match (planAudio merge fs).result with
  | Except.error _ =>
      { events := 10 :: ((planAudio merge fs).events ++ [0]), created := 0,
        registered := 0, failed := true, summaryEmitted := false, transFile := none }
  | Except.ok items =>
      let ex := exportLoop env.exportFails 0 (tempCount items)
      if ex.2.2 = false then
        { events := 10 :: ((planAudio merge fs).events ++ [0]), created := ex.1,
          registered := ex.2.1, failed := true, summaryEmitted := false,
          transFile := none }
      else
        let num := items.length
        let lp := transcribeLoop env.transcribeFails num 0 num
        if lp.2 = false then
          { events := 10 :: ((planAudio merge fs).events ++ 25 :: (lp.1 ++ [0])),
            created := ex.1, registered := ex.2.1, failed := true,
            summaryEmitted := false, transFile := none }
        else
          let tf := if env.saveTranscriptionFails then none else some ex.2.1
          if tOnly then
            { events := 10 :: ((planAudio merge fs).events ++ 25 :: (lp.1 ++ [80, 100])),
              created := ex.1, registered := ex.2.1, failed := false,
              summaryEmitted := true, transFile := tf }
          else if env.summarizeFails then
            { events := 10 :: ((planAudio merge fs).events ++ 25 :: (lp.1 ++ [80, 0])),
              created := ex.1, registered := ex.2.1, failed := true,
              summaryEmitted := false, transFile := tf }
          else
            { events := 10 :: ((planAudio merge fs).events
                ++ 25 :: (lp.1 ++ [80, 90, 100])),
              created := ex.1, registered := ex.2.1, failed := false,
              summaryEmitted := true, transFile := tf }

/-- The `finally` teardown loop (lines 288-294): walk the registered
temporary files in order, `os.remove` each; an `OSError` is logged and the
loop continues.  Returns the successfully deleted ids and the ids whose
deletion failed (logged). -/
def teardownRun (df : Nat → Bool) : List Nat → List Nat × List Nat
  | [] => ([], [])
  | id :: rest =>
      let r := teardownRun df rest
      if df id then (r.1, id :: r.2) else (id :: r.1, r.2)

/-- Observable outcome of one full `run` invocation: `createdTemps` counts
the temporary audio files created on disk; `registered` lists the ones that
reached `temp_files_to_clean` (ids `0, 1, ...` in creation order). -/
structure RunState where
  progressEvents : List Nat
  errorEmitted : Bool
  summaryEmitted : Bool
  createdTemps : Nat
  registered : List Nat
  deleted : List Nat
  deleteErrors : List Nat
  transcriptionFile : Option Nat
deriving Repr

/-- One full `run` invocation (lines 85-301): the `try`/`except` body
followed by the `finally` teardown of exactly the registered temporary
files.  Temporary audio files are identified by allocation order `0, 1, ...`;
the transcription temp file, when created, is the next id and is never
registered. -/
def run (fs : List AudioFile) (merge tOnly : Bool) (env : Env) : RunState :=
  let pre := preRun fs merge tOnly env
  let reg := List.range pre.registered
  { progressEvents := pre.events
    errorEmitted := pre.failed
    summaryEmitted := pre.summaryEmitted
    createdTemps := pre.created
    registered := reg
    deleted := (teardownRun env.deleteFails reg).1
    deleteErrors := (teardownRun env.deleteFails reg).2
    transcriptionFile := pre.transFile }

/-- An environment in which every external collaborator succeeds. -/
def envAllOk : Env :=
  ⟨fun _ => false, fun _ => false, false, false, fun _ => false⟩

example :
    (run [⟨"a.mp3", 100, 1000⟩] true false envAllOk).progressEvents
      = [10, 25, 25, 80, 90, 100] := rfl

example :
    (run [⟨"a.mp3", 100, 1000⟩] true false
        ⟨fun _ => false, fun _ => true, false, false, fun _ => false⟩).progressEvents
      = [10, 25, 25, 0] := rfl

/-- Modelled from the spec: the content digest of `ContentHasher` (design
document section 4.1) — no hashing code exists in `src/`.  The digest is
deterministic on the file bytes and distinct bytes give distinct digests;
the model uses the byte sequence itself as its own (perfect) digest. -/
def digest (content : List Nat) : List Nat := content

/-- Modelled from the spec: the mutable state of `UploadCoordinator`
(design document section 4.5) — no such code exists in `src/`.  It holds
the digest-to-remote-object inventory (seeded from the
`RemoteInventorySnapshot`, extended by the coordinator's own uploads within
the batch), a fresh-id counter, the upload and cache-hit counters, and the
remote ids marked for deletion at batch teardown. -/
structure CoordState where
  inventory : List (List Nat × Nat)
  nextId : Nat
  uploads : Nat
  hits : Nat
  markedForDeletion : List Nat
deriving Repr

/-- Modelled from the spec: a `PreparedPayload` reference (design document
section 3): either a pointer to an existing remote object (cache hit) or a
freshly uploaded one (cache miss). -/
inductive Payload where
  | existing (id : Nat)
  | uploaded (id : Nat)
deriving DecidableEq, Repr

/-- Modelled from the spec: `UploadCoordinator.resolve` (design document
section 4.5) — no such code exists in `src/`.  Hash the content, look the
digest up; on a hit return the existing remote object, increment the hit
counter, upload nothing and mark nothing for deletion; on a miss upload,
increment the upload counter, record the new object in the inventory and
mark it for deletion at batch teardown. -/
def resolve (st : CoordState) (content : List Nat) : Payload × CoordState :=
  match st.inventory.lookup (digest content) with
  | some rid => (Payload.existing rid, { st with hits := st.hits + 1 })
  | none =>
      (Payload.uploaded st.nextId,
        { st with
            inventory := (digest content, st.nextId) :: st.inventory
            nextId := st.nextId + 1
            uploads := st.uploads + 1
            markedForDeletion := st.nextId :: st.markedForDeletion })

example :
    (resolve (resolve ⟨[], 0, 0, 0, []⟩ [1, 2]).2 [1, 2]).2.uploads = 1 := rfl

example :
    (resolve (resolve ⟨[], 0, 0, 0, []⟩ [1, 2]).2 [1, 3]).2.uploads = 2 := rfl

/-! ### Helper lemmas about the multi-file size check -/

lemma totalSizeChecked_ok (fs : List AudioFile)
    (h : ∀ f ∈ fs, f.size ≤ WHISPER_API_LIMIT_BYTES) :
    totalSizeChecked fs = Except.ok ((fs.map AudioFile.size).sum) := by
  induction fs with
  | nil => rfl
  | cons f fs ih =>
      have hf : ¬ WHISPER_API_LIMIT_BYTES < f.size := by
        have := h f (List.mem_cons_self f fs)
        omega
      have ih' := ih (fun g hg => h g (List.mem_cons_of_mem f hg))
      simp [totalSizeChecked, hf, ih', Except.map]

lemma totalSizeChecked_error (fs : List AudioFile)
    (h : ∃ f ∈ fs, WHISPER_API_LIMIT_BYTES < f.size) :
    ∃ e, totalSizeChecked fs = Except.error e := by
  induction fs with
  | nil => simp at h
  | cons f fs ih =>
      by_cases hf : WHISPER_API_LIMIT_BYTES < f.size
      · exact ⟨oversizedMsg f.path, by simp [totalSizeChecked, hf]⟩
      · obtain ⟨g, hg, hgs⟩ := h
        rcases List.mem_cons.mp hg with rfl | hg'
        · exact absurd hgs hf
        · obtain ⟨e, he⟩ := ih ⟨g, hg', hgs⟩
          exact ⟨e, by simp [totalSizeChecked, hf, he, Except.map]⟩

/-- C1: for every batch of at least two input files, if any single input file
exceeds the ceiling, no merged payload is ever produced, even when the merge
flag is enabled and the sum of sizes would fit: the oversized-file check
(lines 150-157) fires before the merge branch can run. -/
theorem C1_no_merge_when_any_oversized (merge : Bool) (fs : List AudioFile)
    (h2 : 2 ≤ fs.length) (hov : ∃ f ∈ fs, WHISPER_API_LIMIT_BYTES < f.size) :
    hasMergedPayload (planAudio merge fs) = false := by
  rcases fs with _ | ⟨f1, _ | ⟨f2, rest⟩⟩
  · simp at h2
  · simp at h2
  · obtain ⟨e, he⟩ := totalSizeChecked_error _ hov
    simp [planAudio, he, hasMergedPayload]

theorem C1_no_merge_when_any_oversized_witness :
    hasMergedPayload (planAudio true
      [⟨"a.mp3", 100, 1000⟩, ⟨"b.mp3", WHISPER_API_LIMIT_BYTES + 1, 2000⟩]) = false :=
  C1_no_merge_when_any_oversized true _ (by decide)
    ⟨⟨"b.mp3", WHISPER_API_LIMIT_BYTES + 1, 2000⟩, by decide, by decide⟩

/-- C2 counterexample: a batch of two files in which one exceeds the ceiling
is not processed at all — the dispatch raises the oversized-file
`ValueError` (lines 153-156) instead of routing the files individually
through the chunking step. -/
theorem C2_counterexample :
    (planAudio true
      [⟨"a.mp3", 100, 1000⟩, ⟨"c.mp3", WHISPER_API_LIMIT_BYTES + 1, 2000⟩]).result
      = Except.error (oversizedMsg "c.mp3") := rfl

/-- C2 (amended): for every batch of at least two input files containing an
oversized file, the whole batch is aborted with an error; the files are not
routed individually and no chunk splitting occurs. -/
theorem C2_amended_oversized_in_batch_aborts (merge : Bool) (fs : List AudioFile)
    (h2 : 2 ≤ fs.length) (hov : ∃ f ∈ fs, WHISPER_API_LIMIT_BYTES < f.size) :
    planAborts (planAudio merge fs) = true := by
  rcases fs with _ | ⟨f1, _ | ⟨f2, rest⟩⟩
  · simp at h2
  · simp at h2
  · obtain ⟨e, he⟩ := totalSizeChecked_error _ hov
    simp [planAudio, he, planAborts]

theorem C2_amended_oversized_in_batch_aborts_witness :
    planAborts (planAudio true
      [⟨"a.mp3", 100, 1000⟩, ⟨"c.mp3", WHISPER_API_LIMIT_BYTES + 1, 2000⟩]) = true :=
  C2_amended_oversized_in_batch_aborts true _ (by decide)
    ⟨⟨"c.mp3", WHISPER_API_LIMIT_BYTES + 1, 2000⟩, by decide, by decide⟩

/-- C4 counterexample: a single file of size exactly the ceiling is not
passed through: the `file_size < WHISPER_API_LIMIT_BYTES` test (line 114) is
strict, so the file takes the split branch and yields one re-encoded
temporary chunk, which is not a pass-through unit. -/
theorem C4_counterexample :
    (planAudio true [⟨"a.mp3", WHISPER_API_LIMIT_BYTES, 1000⟩]).result
      = Except.ok [PlanItem.tempChunk 0 1000]
    ∧ PlanItem.tempChunk 0 1000 ≠ PlanItem.original "a.mp3" := by
  exact ⟨rfl, by decide⟩

/-- C4 (amended): a single input file passes through unchanged as exactly one
unit if and only if its size is strictly under the ceiling; a file of size
exactly equal to the ceiling takes the split branch instead. -/
theorem C4_amended_passthrough_iff_strictly_under (merge : Bool) (f : AudioFile)
    (h : f.size < WHISPER_API_LIMIT_BYTES) :
    planAudio merge [f] = ⟨[], Except.ok [PlanItem.original f.path]⟩ := by
  simp [planAudio, h]

theorem C4_amended_passthrough_iff_strictly_under_witness :
    planAudio true [⟨"a.mp3", 100, 1000⟩]
      = ⟨[], Except.ok [PlanItem.original "a.mp3"]⟩ :=
  C4_amended_passthrough_iff_strictly_under true ⟨"a.mp3", 100, 1000⟩ (by decide)

/-- C5: for a single oversized input whose computed per-chunk duration is
zero, the split step terminates with the `range` zero-step `ValueError`
(rather than looping forever), and the whole batch run ends on the error
path. -/
theorem C5_zero_chunk_duration_errors (f : AudioFile) (merge tOnly : Bool) (env : Env)
    (h1 : WHISPER_API_LIMIT_BYTES < f.size)
    (h2 : chunkDurationMs f.durationMs f.size = 0) :
    planAudio merge [f] = ⟨[15], Except.error zeroStepMsg⟩
    ∧ (run [f] merge tOnly env).errorEmitted = true := by
  have hns : ¬ f.size < WHISPER_API_LIMIT_BYTES := by omega
  have hplan : planAudio merge [f] = ⟨[15], Except.error zeroStepMsg⟩ := by
    simp [planAudio, hns, splitOversized, h2]
  refine ⟨hplan, ?_⟩
  simp [run, preRun, hplan]

theorem C5_zero_chunk_duration_errors_witness :
    planAudio true [⟨"huge.mp3", 2 * WHISPER_API_LIMIT_BYTES, 1⟩]
      = ⟨[15], Except.error zeroStepMsg⟩
    ∧ (run [⟨"huge.mp3", 2 * WHISPER_API_LIMIT_BYTES, 1⟩] true false envAllOk).errorEmitted
      = true :=
  C5_zero_chunk_duration_errors ⟨"huge.mp3", 2 * WHISPER_API_LIMIT_BYTES, 1⟩ true false
    envAllOk (by decide) (by decide)

/-- C6: for every batch of at least two files each individually within the
ceiling, the dispatch merges them all into one payload (in input order)
exactly when the merge flag is set and the total size is under the ceiling,
and otherwise passes every file through as its own unit in input order. -/
theorem C6_merge_or_passthrough (merge : Bool) (fs : List AudioFile)
    (h2 : 2 ≤ fs.length)
    (hall : ∀ f ∈ fs, f.size ≤ WHISPER_API_LIMIT_BYTES) :
    (planAudio merge fs).result =
      Except.ok
        (if (fs.map AudioFile.size).sum < WHISPER_API_LIMIT_BYTES ∧ merge = true then
          [PlanItem.merged (fs.map AudioFile.path)]
        else
          fs.map (fun f => PlanItem.original f.path)) := by
  rcases fs with _ | ⟨f1, _ | ⟨f2, rest⟩⟩
  · simp at h2
  · simp at h2
  · have ht := totalSizeChecked_ok (f1 :: f2 :: rest) hall
    simp [planAudio, ht, apply_ite PlanOut.result, apply_ite Except.ok]

theorem C6_merge_or_passthrough_witness :
    (planAudio true [⟨"a.mp3", 100, 1000⟩, ⟨"b.mp3", 200, 1000⟩]).result
      = Except.ok [PlanItem.merged ["a.mp3", "b.mp3"]] := by
  have h := C6_merge_or_passthrough true
    [⟨"a.mp3", 100, 1000⟩, ⟨"b.mp3", 200, 1000⟩] (by decide) (by decide)
  simpa using h

/-! ### Teardown and error-policy lemmas -/

lemma teardownRun_eq_filter (df : Nat → Bool) (l : List Nat) :
    teardownRun df l = (l.filter (fun id => !df id), l.filter df) := by
  induction l with
  | nil => rfl
  | cons x l ih =>
      by_cases h : df x <;> simp [teardownRun, ih, List.filter_cons, h]

lemma exportLoop_counts (ef : Nat → Bool) :
    ∀ rem i,
      (exportLoop ef i rem).2.1 ≤ (exportLoop ef i rem).1
      ∧ (exportLoop ef i rem).1 ≤ (exportLoop ef i rem).2.1 + 1
      ∧ ((exportLoop ef i rem).2.2 = true →
          (exportLoop ef i rem).1 = (exportLoop ef i rem).2.1) := by
  intro rem
  induction rem with
  | zero => intro i; exact ⟨le_refl i, Nat.le_succ i, fun _ => rfl⟩
  | succ n ih =>
      intro i
      by_cases h : ef i
      · simp [exportLoop, h]
      · simpa [exportLoop, h] using ih (i + 1)

lemma preRun_summary (fs : List AudioFile) (merge tOnly : Bool) (env : Env) :
    (preRun fs merge tOnly env).summaryEmitted = !(preRun fs merge tOnly env).failed := by
  unfold preRun
  cases hres : (planAudio merge fs).result with
  | error e => simp
  | ok items =>
      by_cases hx : (exportLoop env.exportFails 0 (tempCount items)).2.2 = false
      · simp [hx]
      · by_cases h1 :
            (transcribeLoop env.transcribeFails items.length 0 items.length).2 = false
        · simp [hx, h1]
        · by_cases h2 : tOnly
          · simp [hx, h1, h2]
          · by_cases h3 : env.summarizeFails <;> simp [hx, h1, h2, h3]

lemma preRun_created (fs : List AudioFile) (merge tOnly : Bool) (env : Env) :
    (preRun fs merge tOnly env).registered ≤ (preRun fs merge tOnly env).created
    ∧ (preRun fs merge tOnly env).created ≤ (preRun fs merge tOnly env).registered + 1
    ∧ ((preRun fs merge tOnly env).failed = false →
        (preRun fs merge tOnly env).created = (preRun fs merge tOnly env).registered) := by
  unfold preRun
  cases hres : (planAudio merge fs).result with
  | error e => simp
  | ok items =>
      obtain ⟨he1, he2, he3⟩ := exportLoop_counts env.exportFails (tempCount items) 0
      by_cases hx : (exportLoop env.exportFails 0 (tempCount items)).2.2 = false
      · simp only [hx, if_pos]
        exact ⟨he1, he2, by simp⟩
      · have hx' : (exportLoop env.exportFails 0 (tempCount items)).2.2 = true := by
          rcases Bool.eq_false_or_eq_true
            ((exportLoop env.exportFails 0 (tempCount items)).2.2) with hb | hb
          · exact hb
          · exact absurd hb hx
        have heq := he3 hx'
        by_cases h1 :
            (transcribeLoop env.transcribeFails items.length 0 items.length).2 = false
        · simp [hx, h1]
          omega
        · by_cases h2 : tOnly
          · simp [hx, h1, h2]
            omega
          · by_cases h3 : env.summarizeFails <;> simp [hx, h1, h2, h3] <;> omega

/-- C7 counterexample: when the pydub export of the first chunk raises —
between the temp-file creation at line 137 and its registration at
line 142 — the run aborts with one temporary file created on disk but
nothing registered, and the `finally` teardown deletes nothing: the created
file leaks, so teardown does not delete every temporary file the pipeline
created up to that point. -/
theorem C7_counterexample :
    (run [⟨"big.mp3", 2 * WHISPER_API_LIMIT_BYTES, 1000⟩] true false
        ⟨fun _ => true, fun _ => false, false, false, fun _ => false⟩).errorEmitted
      = true
    ∧ (run [⟨"big.mp3", 2 * WHISPER_API_LIMIT_BYTES, 1000⟩] true false
        ⟨fun _ => true, fun _ => false, false, false, fun _ => false⟩).createdTemps
      = 1
    ∧ (run [⟨"big.mp3", 2 * WHISPER_API_LIMIT_BYTES, 1000⟩] true false
        ⟨fun _ => true, fun _ => false, false, false, fun _ => false⟩).registered
      = []
    ∧ (run [⟨"big.mp3", 2 * WHISPER_API_LIMIT_BYTES, 1000⟩] true false
        ⟨fun _ => true, fun _ => false, false, false, fun _ => false⟩).deleted
      = [] := by
  exact ⟨rfl, rfl, rfl, rfl⟩

/-- C7 (amended): in every execution — success or failure — the summary is
emitted exactly when no error was, so a failed batch never yields a partial
result; the `finally` teardown walks exactly the registered temporary files,
deleting each one whose `os.remove` succeeds and logging (as `deleteErrors`)
exactly the ones whose deletion fails; every created temporary file is
registered except possibly the single one whose export raised mid-creation
(on an error-free run every created temp file is registered, and hence
deleted when its removal succeeds); and deletion failures are never
re-raised: the progress events, the error flag and the result flag of the
run are the same as in a run whose deletions all succeed. -/
theorem C7_amended_failfast_and_teardown (fs : List AudioFile) (merge tOnly : Bool)
    (env : Env) :
    (run fs merge tOnly env).summaryEmitted = !(run fs merge tOnly env).errorEmitted
    ∧ (run fs merge tOnly env).deleted
        = (run fs merge tOnly env).registered.filter (fun id => !env.deleteFails id)
    ∧ (run fs merge tOnly env).deleteErrors
        = (run fs merge tOnly env).registered.filter (fun id => env.deleteFails id)
    ∧ (run fs merge tOnly env).registered.length ≤ (run fs merge tOnly env).createdTemps
    ∧ (run fs merge tOnly env).createdTemps
        ≤ (run fs merge tOnly env).registered.length + 1
    ∧ ((run fs merge tOnly env).errorEmitted = false →
        (run fs merge tOnly env).createdTemps
          = (run fs merge tOnly env).registered.length)
    ∧ (run fs merge tOnly { env with deleteFails := fun _ => false }).progressEvents
        = (run fs merge tOnly env).progressEvents
    ∧ (run fs merge tOnly { env with deleteFails := fun _ => false }).errorEmitted
        = (run fs merge tOnly env).errorEmitted
    ∧ (run fs merge tOnly { env with deleteFails := fun _ => false }).summaryEmitted
        = (run fs merge tOnly env).summaryEmitted := by
  have hlen : (run fs merge tOnly env).registered.length
      = (preRun fs merge tOnly env).registered := by
    show (List.range (preRun fs merge tOnly env).registered).length = _
    simp
  have hcr := preRun_created fs merge tOnly env
  refine ⟨preRun_summary fs merge tOnly env, ?_, ?_, ?_, ?_, ?_, rfl, rfl, rfl⟩
  · show (teardownRun env.deleteFails
        (List.range (preRun fs merge tOnly env).registered)).1 = _
    rw [teardownRun_eq_filter]
    rfl
  · show (teardownRun env.deleteFails
        (List.range (preRun fs merge tOnly env).registered)).2 = _
    rw [teardownRun_eq_filter]
    rfl
  · rw [hlen]
    exact hcr.1
  · rw [hlen]
    exact hcr.2.1
  · intro h
    rw [hlen]
    exact hcr.2.2 h

theorem C7_amended_failfast_and_teardown_witness :
    (run [⟨"a.mp3", 100, 1000⟩] true false envAllOk).createdTemps
      = (run [⟨"a.mp3", 100, 1000⟩] true false envAllOk).registered.length :=
  (C7_amended_failfast_and_teardown [⟨"a.mp3", 100, 1000⟩] true false
    envAllOk).2.2.2.2.2.1 rfl

lemma preRun_transFile_cases (fs : List AudioFile) (merge tOnly : Bool) (env : Env) :
    (preRun fs merge tOnly env).transFile = none
    ∨ (preRun fs merge tOnly env).transFile
        = some (preRun fs merge tOnly env).registered := by
  unfold preRun
  cases hres : (planAudio merge fs).result with
  | error e => left; rfl
  | ok items =>
      by_cases hx : (exportLoop env.exportFails 0 (tempCount items)).2.2 = false
      · left; simp [hx]
      · by_cases h1 :
            (transcribeLoop env.transcribeFails items.length 0 items.length).2 = false
        · left; simp [hx, h1]
        · by_cases h2 : env.saveTranscriptionFails
          · left
            by_cases h3 : tOnly <;> by_cases h4 : env.summarizeFails <;>
              simp [hx, h1, h2, h3, h4]
          · right
            by_cases h3 : tOnly <;> by_cases h4 : env.summarizeFails <;>
              simp [hx, h1, h2, h3, h4]

/-- C10 (implicit frame effect): whenever the run created the temporary
transcription text file (`delete=False`, lines 247-251), that file is not in
the cleanup list, is not deleted by teardown, and teardown deletes only
files that are in the cleanup list. -/
theorem C10_transcription_file_survives (fs : List AudioFile) (merge tOnly : Bool)
    (env : Env) (tid : Nat)
    (h : (run fs merge tOnly env).transcriptionFile = some tid) :
    tid ∉ (run fs merge tOnly env).registered
    ∧ tid ∉ (run fs merge tOnly env).deleted
    ∧ ∀ x ∈ (run fs merge tOnly env).deleted, x ∈ (run fs merge tOnly env).registered := by
  have hc := preRun_transFile_cases fs merge tOnly env
  have hjoint : (run fs merge tOnly env).transcriptionFile
      = (preRun fs merge tOnly env).transFile := rfl
  rw [hjoint] at h
  have hreg : (run fs merge tOnly env).registered
      = List.range (preRun fs merge tOnly env).registered := rfl
  have hdel : (run fs merge tOnly env).deleted
      = (List.range (preRun fs merge tOnly env).registered).filter
          (fun id => !env.deleteFails id) := by
    show (teardownRun env.deleteFails
        (List.range (preRun fs merge tOnly env).registered)).1 = _
    rw [teardownRun_eq_filter]
  rcases hc with hn | hs
  · rw [hn] at h; exact absurd h (by simp)
  · rw [hs] at h
    have htid : tid = (preRun fs merge tOnly env).registered := (Option.some.inj h).symm
    subst htid
    refine ⟨?_, ?_, ?_⟩
    · rw [hreg]; simp
    · rw [hdel]
      intro hmem
      have := List.mem_of_mem_filter hmem
      simp at this
    · intro x hx
      rw [hdel] at hx
      rw [hreg]
      exact List.mem_of_mem_filter hx

theorem C10_transcription_file_survives_witness :
    (0 : Nat) ∉ (run [⟨"a.mp3", 100, 1000⟩] true false envAllOk).registered
    ∧ (0 : Nat) ∉ (run [⟨"a.mp3", 100, 1000⟩] true false envAllOk).deleted
    ∧ ∀ x ∈ (run [⟨"a.mp3", 100, 1000⟩] true false envAllOk).deleted,
        x ∈ (run [⟨"a.mp3", 100, 1000⟩] true false envAllOk).registered :=
  C10_transcription_file_survives [⟨"a.mp3", 100, 1000⟩] true false envAllOk 0 rfl

/-- C8 (modelled from the spec): resolving the same content twice in one
batch makes the second resolve a cache hit — it returns the existing remote
object, issues zero uploads and marks nothing new for deletion — while
resolving two contents that differ (both absent from the initial inventory)
uploads both. -/
theorem C8_dedup_second_resolve_hits (st : CoordState) (c c' : List Nat)
    (h1 : st.inventory.lookup (digest c) = none)
    (h2 : st.inventory.lookup (digest c') = none)
    (hne : c ≠ c') :
    (resolve (resolve st c).2 c).1 = Payload.existing st.nextId
    ∧ (resolve (resolve st c).2 c).2.uploads = (resolve st c).2.uploads
    ∧ (resolve (resolve st c).2 c).2.hits = (resolve st c).2.hits + 1
    ∧ (resolve (resolve st c).2 c).2.markedForDeletion
        = (resolve st c).2.markedForDeletion
    ∧ (resolve (resolve st c).2 c').2.uploads = st.uploads + 2 := by
  have hc : (digest c == digest c) = true := by simp [digest]
  have hc' : (digest c' == digest c) = false := by
    simp [digest]
    exact fun hcc => hne hcc.symm
  refine ⟨?_, ?_, ?_, ?_, ?_⟩ <;>
    simp [resolve, h1, h2, List.lookup, hc, hc']

theorem C8_dedup_second_resolve_hits_witness :
    (resolve (resolve ⟨[], 0, 0, 0, []⟩ [1, 2]).2 [1, 2]).1 = Payload.existing 0
    ∧ (resolve (resolve ⟨[], 0, 0, 0, []⟩ [1, 2]).2 [1, 2]).2.uploads
        = (resolve ⟨[], 0, 0, 0, []⟩ [1, 2]).2.uploads
    ∧ (resolve (resolve ⟨[], 0, 0, 0, []⟩ [1, 2]).2 [1, 2]).2.hits
        = (resolve ⟨[], 0, 0, 0, []⟩ [1, 2]).2.hits + 1
    ∧ (resolve (resolve ⟨[], 0, 0, 0, []⟩ [1, 2]).2 [1, 2]).2.markedForDeletion
        = (resolve ⟨[], 0, 0, 0, []⟩ [1, 2]).2.markedForDeletion
    ∧ (resolve (resolve ⟨[], 0, 0, 0, []⟩ [1, 2]).2 [1, 3]).2.uploads
        = (⟨[], 0, 0, 0, []⟩ : CoordState).uploads + 2 :=
  C8_dedup_second_resolve_hits ⟨[], 0, 0, 0, []⟩ [1, 2] [1, 3] rfl rfl (by decide)

/-! ### Arithmetic of the chunk split -/

lemma le_ceilDiv_mul (D T : Nat) (hT : 0 < T) : D ≤ (D + T - 1) / T * T := by
  have h1 : T * ((D + T - 1) / T) + (D + T - 1) % T = D + T - 1 := Nat.div_add_mod _ _
  have h2 : (D + T - 1) % T < T := Nat.mod_lt _ hT
  rw [Nat.mul_comm] at h1
  generalize (D + T - 1) / T * T = a at h1 ⊢
  omega

lemma mul_lt_of_lt_ceilDiv (D T i : Nat) (hT : 0 < T)
    (hi : i < (D + T - 1) / T) : i * T < D := by
  have h2 : (i + 1) * T ≤ D + T - 1 := (Nat.le_div_iff_mul_le hT).mp hi
  rw [Nat.succ_mul] at h2
  generalize i * T = a at h2 ⊢
  omega

lemma tele_min (T D N : Nat) :
    ((List.range N).map (fun i => min ((i + 1) * T) D - min (i * T) D)).sum
      = min (N * T) D := by
  induction N with
  | zero => simp
  | succ n ih =>
      rw [List.range_succ, List.map_append, List.sum_append]
      simp only [List.map_cons, List.map_nil, List.sum_cons, List.sum_nil, ih]
      have hmono : min (n * T) D ≤ min ((n + 1) * T) D :=
        min_le_min (Nat.mul_le_mul_right T (Nat.le_succ n)) le_rfl
      generalize min (n * T) D = a at hmono ⊢
      generalize min ((n + 1) * T) D = b at hmono ⊢
      omega

lemma pos_duration_of_chunkDuration_pos (D S : Nat)
    (hT : 0 < chunkDurationMs D S) : 0 < D := by
  by_contra h
  have hD : D = 0 := by omega
  subst hD
  simp [chunkDurationMs] at hT

lemma chunkList_length (D S : Nat) :
    (chunkList D S).length
      = (D + chunkDurationMs D S - 1) / chunkDurationMs D S := by
  simp [chunkList, pyRange]

lemma chunkList_get (D S : Nat) (i : Nat) (hi : i < (chunkList D S).length) :
    (chunkList D S).get ⟨i, hi⟩
      = ⟨i * chunkDurationMs D S, min ((i + 1) * chunkDurationMs D S) D⟩ := by
  simp [chunkList, pyRange, Nat.succ_mul]

lemma chunkList_durations (D S : Nat) (hT : 0 < chunkDurationMs D S) :
    ((chunkList D S).map (fun c => c.endMs - c.startMs)).sum = D := by
  have hD : 0 < D := pos_duration_of_chunkDuration_pos D S hT
  have hmm : (chunkList D S).map (fun c => c.endMs - c.startMs)
      = (List.range ((D + chunkDurationMs D S - 1) / chunkDurationMs D S)).map
          (fun i => min ((i + 1) * chunkDurationMs D S) D
            - min (i * chunkDurationMs D S) D) := by
    rw [chunkList, pyRange, List.map_map, List.map_map]
    apply List.map_congr_left
    intro i hi
    simp only [Function.comp_apply]
    have hiT : i * chunkDurationMs D S ≤ D :=
      le_of_lt (mul_lt_of_lt_ceilDiv D _ i hT (List.mem_range.mp hi))
    rw [Nat.succ_mul, min_eq_left hiT]
  rw [hmm, tele_min, min_eq_right (le_ceilDiv_mul D _ hT)]

lemma chunkList_size_bound (D S : Nat) :
    ∀ c ∈ chunkList D S,
      (c.endMs - c.startMs) * S ≤ D * WHISPER_API_LIMIT_BYTES := by
  intro c hc
  obtain ⟨s, _, rfl⟩ := List.mem_map.mp hc
  have hdur : min (s + chunkDurationMs D S) D - s ≤ chunkDurationMs D S := by
    have := min_le_left (s + chunkDurationMs D S) D
    omega
  have h2 : chunkDurationMs D S * S ≤ D * WHISPER_API_LIMIT_BYTES :=
    Nat.div_mul_le_self _ _
  calc (min (s + chunkDurationMs D S) D - s) * S
      ≤ chunkDurationMs D S * S := Nat.mul_le_mul_right S hdur
    _ ≤ D * WHISPER_API_LIMIT_BYTES := h2

lemma ceil_ratio_le_chunks (D S : Nat)
    (hS : WHISPER_API_LIMIT_BYTES < S) (hT : 0 < chunkDurationMs D S) :
    (S + WHISPER_API_LIMIT_BYTES - 1) / WHISPER_API_LIMIT_BYTES
      ≤ (D + chunkDurationMs D S - 1) / chunkDurationMs D S := by
  have hCpos : 0 < WHISPER_API_LIMIT_BYTES := by decide
  have hD : 0 < D := pos_duration_of_chunkDuration_pos D S hT
  rcases Nat.eq_zero_or_pos ((S + WHISPER_API_LIMIT_BYTES - 1) / WHISPER_API_LIMIT_BYTES)
    with hq0 | hqpos
  · rw [hq0]
    exact Nat.zero_le _
  · have h1 : chunkDurationMs D S * S ≤ D * WHISPER_API_LIMIT_BYTES :=
      Nat.div_mul_le_self _ _
    have h2 : (S + WHISPER_API_LIMIT_BYTES - 1) / WHISPER_API_LIMIT_BYTES
        * WHISPER_API_LIMIT_BYTES ≤ S + WHISPER_API_LIMIT_BYTES - 1 :=
      Nat.div_mul_le_self _ _
    have h3 : ((S + WHISPER_API_LIMIT_BYTES - 1) / WHISPER_API_LIMIT_BYTES - 1)
        * WHISPER_API_LIMIT_BYTES < S := by
      rw [Nat.sub_mul, one_mul]
      omega
    have h4 : ((S + WHISPER_API_LIMIT_BYTES - 1) / WHISPER_API_LIMIT_BYTES - 1)
        * chunkDurationMs D S < D := by
      by_contra hcon
      push_neg at hcon
      have e1 : ((S + WHISPER_API_LIMIT_BYTES - 1) / WHISPER_API_LIMIT_BYTES - 1)
          * chunkDurationMs D S * S
          ≤ ((S + WHISPER_API_LIMIT_BYTES - 1) / WHISPER_API_LIMIT_BYTES - 1)
              * (D * WHISPER_API_LIMIT_BYTES) := by
        rw [Nat.mul_assoc]
        exact Nat.mul_le_mul_left _ h1
      have e2 : ((S + WHISPER_API_LIMIT_BYTES - 1) / WHISPER_API_LIMIT_BYTES - 1)
          * (D * WHISPER_API_LIMIT_BYTES)
          = D * (((S + WHISPER_API_LIMIT_BYTES - 1) / WHISPER_API_LIMIT_BYTES - 1)
              * WHISPER_API_LIMIT_BYTES) := by ring
      have e3 : D * (((S + WHISPER_API_LIMIT_BYTES - 1) / WHISPER_API_LIMIT_BYTES - 1)
          * WHISPER_API_LIMIT_BYTES) < D * S :=
        mul_lt_mul_of_pos_left h3 hD
      have e4 : D * S
          ≤ ((S + WHISPER_API_LIMIT_BYTES - 1) / WHISPER_API_LIMIT_BYTES - 1)
              * chunkDurationMs D S * S :=
        Nat.mul_le_mul_right S hcon
      omega
    rw [Nat.le_div_iff_mul_le hT]
    rw [Nat.sub_mul, one_mul] at h4
    have hTle : chunkDurationMs D S
        ≤ (S + WHISPER_API_LIMIT_BYTES - 1) / WHISPER_API_LIMIT_BYTES
            * chunkDurationMs D S :=
      Nat.le_mul_of_pos_left _ hqpos
    omega

/-- C3 counterexample: a file of twice the ceiling (S = 48 MiB) with an odd
millisecond duration D = 3600001 gets per-chunk duration
T = floor(D/2) = 1800000, and `range(0, D, T)` yields 3 starts, so the split
produces 3 chunks — not ⌈S / ceiling⌉ = 2 as the claim states. -/
theorem C3_counterexample :
    (chunkList 3600001 (2 * WHISPER_API_LIMIT_BYTES)).length = 3
    ∧ (2 * WHISPER_API_LIMIT_BYTES + WHISPER_API_LIMIT_BYTES - 1)
        / WHISPER_API_LIMIT_BYTES = 2
    ∧ splitOversized 3600001 (2 * WHISPER_API_LIMIT_BYTES)
        = Except.ok (chunkList 3600001 (2 * WHISPER_API_LIMIT_BYTES)) := by
  refine ⟨?_, ?_, ?_⟩ <;> rfl

/-- C3 (amended): for a single oversized file of size S and duration D with
computed per-chunk duration T = floor(D * ceiling / S) positive, the split
step succeeds and partitions [0, D) into consecutive intervals of length T
(last possibly shorter): it produces exactly ⌈D / T⌉ chunks — which is at
least ⌈S / ceiling⌉ but can exceed it — with chunk i spanning
[i*T, min((i+1)*T, D)), each with estimated size ≤ ceiling
(duration * S ≤ D * ceiling), and the chunk durations summing to D
exactly. -/
theorem C3_amended_split_partition (D S : Nat)
    (hS : WHISPER_API_LIMIT_BYTES < S)
    (hT : 0 < chunkDurationMs D S) :
    splitOversized D S = Except.ok (chunkList D S)
    ∧ (chunkList D S).length
        = (D + chunkDurationMs D S - 1) / chunkDurationMs D S
    ∧ (∀ i, ∀ hi : i < (chunkList D S).length,
        (chunkList D S).get ⟨i, hi⟩
          = ⟨i * chunkDurationMs D S, min ((i + 1) * chunkDurationMs D S) D⟩)
    ∧ ((chunkList D S).map (fun c => c.endMs - c.startMs)).sum = D
    ∧ (∀ c ∈ chunkList D S,
        (c.endMs - c.startMs) * S ≤ D * WHISPER_API_LIMIT_BYTES)
    ∧ (S + WHISPER_API_LIMIT_BYTES - 1) / WHISPER_API_LIMIT_BYTES
        ≤ (chunkList D S).length := by
  refine ⟨?_, chunkList_length D S, chunkList_get D S,
    chunkList_durations D S hT, chunkList_size_bound D S, ?_⟩
  · simp [splitOversized]
    omega
  · rw [chunkList_length]
    exact ceil_ratio_le_chunks D S hS hT

theorem C3_amended_split_partition_witness :
    splitOversized 9000 (3 * WHISPER_API_LIMIT_BYTES)
        = Except.ok (chunkList 9000 (3 * WHISPER_API_LIMIT_BYTES))
    ∧ (chunkList 9000 (3 * WHISPER_API_LIMIT_BYTES)).length
        = (9000 + chunkDurationMs 9000 (3 * WHISPER_API_LIMIT_BYTES) - 1)
            / chunkDurationMs 9000 (3 * WHISPER_API_LIMIT_BYTES)
    ∧ (∀ i, ∀ hi : i < (chunkList 9000 (3 * WHISPER_API_LIMIT_BYTES)).length,
        (chunkList 9000 (3 * WHISPER_API_LIMIT_BYTES)).get ⟨i, hi⟩
          = ⟨i * chunkDurationMs 9000 (3 * WHISPER_API_LIMIT_BYTES),
              min ((i + 1) * chunkDurationMs 9000 (3 * WHISPER_API_LIMIT_BYTES)) 9000⟩)
    ∧ ((chunkList 9000 (3 * WHISPER_API_LIMIT_BYTES)).map
        (fun c => c.endMs - c.startMs)).sum = 9000
    ∧ (∀ c ∈ chunkList 9000 (3 * WHISPER_API_LIMIT_BYTES),
        (c.endMs - c.startMs) * (3 * WHISPER_API_LIMIT_BYTES)
          ≤ 9000 * WHISPER_API_LIMIT_BYTES)
    ∧ (3 * WHISPER_API_LIMIT_BYTES + WHISPER_API_LIMIT_BYTES - 1)
        / WHISPER_API_LIMIT_BYTES
        ≤ (chunkList 9000 (3 * WHISPER_API_LIMIT_BYTES)).length :=
  C3_amended_split_partition 9000 (3 * WHISPER_API_LIMIT_BYTES) (by decide) (by decide)

/-! ### Progress-event lemmas -/

lemma div55_le (i num : Nat) (h : i < num) : 55 * i / num ≤ 55 := by
  have h0 : 0 < num := by omega
  have hle : 55 * i ≤ 55 * num := Nat.mul_le_mul_left _ (by omega)
  calc 55 * i / num ≤ 55 * num / num := Nat.div_le_div_right hle
    _ = 55 := Nat.mul_div_cancel 55 h0

lemma transcribeLoop_head (tf : Nat → Bool) (num i n : Nat) :
    ((transcribeLoop tf num i (n + 1)).1).head? = some (25 + 55 * i / num) := by
  by_cases h : tf i <;> simp [transcribeLoop, h]

lemma transcribeLoop_events (tf : Nat → Bool) (num : Nat) :
    ∀ rem i, i + rem ≤ num →
      List.Chain' (· ≤ ·) (transcribeLoop tf num i rem).1
      ∧ ∀ x ∈ (transcribeLoop tf num i rem).1, 25 + 55 * i / num ≤ x ∧ x ≤ 80 := by
  intro rem
  induction rem with
  | zero =>
      intro i h
      exact ⟨by simp [transcribeLoop], by simp [transcribeLoop]⟩
  | succ n ih =>
      intro i h
      have hinum : i < num := by omega
      have hbound : 55 * i / num ≤ 55 := div55_le i num hinum
      by_cases hf : tf i
      · refine ⟨by simp [transcribeLoop, hf], ?_⟩
        intro x hx
        simp [transcribeLoop, hf] at hx
        subst hx
        exact ⟨le_refl _, by omega⟩
      · obtain ⟨ihc, ihb⟩ := ih (i + 1) (by omega)
        have hmono : 55 * i / num ≤ 55 * (i + 1) / num :=
          Nat.div_le_div_right (Nat.mul_le_mul_left _ (Nat.le_succ i))
        have hunf : (transcribeLoop tf num i (n + 1)).1
            = (25 + 55 * i / num) :: (transcribeLoop tf num (i + 1) n).1 := by
          simp [transcribeLoop, hf]
        constructor
        · rw [hunf]
          apply List.chain'_cons'.mpr
          refine ⟨?_, ihc⟩
          intro b hb
          rcases n with _ | m
          · simp [transcribeLoop] at hb
          · rw [transcribeLoop_head] at hb
            simp at hb
            omega
        · intro x hx
          rw [hunf] at hx
          rcases List.mem_cons.mp hx with rfl | hx'
          · exact ⟨le_refl _, by omega⟩
          · obtain ⟨hlo, hhi⟩ := ihb x hx'
            exact ⟨by omega, hhi⟩

lemma planAudio_events_cases (merge : Bool) (fs : List AudioFile) :
    (planAudio merge fs).events = []
    ∨ (planAudio merge fs).events = [15]
    ∨ (planAudio merge fs).events = [20] := by
  rcases fs with _ | ⟨f1, _ | ⟨f2, rest⟩⟩
  · exact Or.inl rfl
  · by_cases h : f1.size < WHISPER_API_LIMIT_BYTES
    · exact Or.inl (by simp [planAudio, h])
    · cases hs : splitOversized f1.durationMs f1.size with
      | error e => exact Or.inr (Or.inl (by simp [planAudio, h, hs]))
      | ok cs => exact Or.inr (Or.inl (by simp [planAudio, h, hs]))
  · cases ht : totalSizeChecked (f1 :: f2 :: rest) with
    | error e => exact Or.inl (by simp [planAudio, ht])
    | ok total =>
        by_cases hc : total < WHISPER_API_LIMIT_BYTES ∧ merge = true
        · exact Or.inr (Or.inr (by simp [planAudio, ht, hc]))
        · exact Or.inl (by simp [planAudio, ht, hc])

lemma chain_le_append (l1 l2 : List Nat) (c : Nat)
    (h1 : List.Chain' (· ≤ ·) l1) (h2 : List.Chain' (· ≤ ·) l2)
    (hb1 : ∀ x ∈ l1, x ≤ c) (hb2 : ∀ y ∈ l2, c ≤ y) :
    List.Chain' (· ≤ ·) (l1 ++ l2) := by
  apply h1.append h2
  intro x hx y hy
  have hx1 : x ∈ l1 := by
    obtain ⟨hne, hxe⟩ := List.mem_getLast?_eq_getLast hx
    exact hxe ▸ List.getLast_mem hne
  have hy1 : y ∈ l2 := by
    have := List.eq_cons_of_mem_head? hy
    rw [this]
    exact List.mem_cons_self _ _
  exact le_trans (hb1 x hx1) (hb2 y hy1)

lemma events_chain (pe le tl : List Nat)
    (hpe : pe = [] ∨ pe = [15] ∨ pe = [20])
    (hle : List.Chain' (· ≤ ·) le)
    (hlb : ∀ x ∈ le, 25 ≤ x ∧ x ≤ 80)
    (htl : tl = [80, 100] ∨ tl = [80, 90, 100]) :
    List.Chain' (· ≤ ·) (10 :: (pe ++ 25 :: (le ++ tl))) := by
  have htlc : List.Chain' (· ≤ ·) tl := by
    rcases htl with rfl | rfl <;> simp [List.chain'_cons]
  have htlb : ∀ y ∈ tl, 80 ≤ y := by rcases htl with rfl | rfl <;> decide
  have h1 : List.Chain' (· ≤ ·) (le ++ tl) :=
    chain_le_append le tl 80 hle htlc (fun x hx => (hlb x hx).2) htlb
  have h2 : List.Chain' (· ≤ ·) (25 :: (le ++ tl)) := by
    apply List.chain'_cons'.mpr
    refine ⟨?_, h1⟩
    intro b hb
    have hbmem : b ∈ le ++ tl := by
      have := List.eq_cons_of_mem_head? hb
      rw [this]
      exact List.mem_cons_self _ _
    rcases List.mem_append.mp hbmem with h | h
    · exact (hlb b h).1
    · exact le_trans (by omega) (htlb b h)
  rcases hpe with rfl | rfl | rfl
  · apply List.chain'_cons'.mpr
    refine ⟨?_, h2⟩
    intro b hb
    simp at hb
    omega
  · apply List.chain'_cons'.mpr
    refine ⟨?_, ?_⟩
    · intro b hb
      simp at hb
      omega
    · apply List.chain'_cons'.mpr
      refine ⟨?_, h2⟩
      intro b hb
      simp at hb
      omega
  · apply List.chain'_cons'.mpr
    refine ⟨?_, ?_⟩
    · intro b hb
      simp at hb
      omega
    · apply List.chain'_cons'.mpr
      refine ⟨?_, h2⟩
      intro b hb
      simp at hb
      omega

lemma events_bound (pe le tl : List Nat)
    (hpe : pe = [] ∨ pe = [15] ∨ pe = [20])
    (hlb : ∀ x ∈ le, x ≤ 80)
    (htl : ∀ y ∈ tl, y ≤ 100) :
    ∀ p ∈ 10 :: (pe ++ 25 :: (le ++ tl)), p ≤ 100 := by
  intro p hp
  rcases List.mem_cons.mp hp with rfl | hp1
  · omega
  rcases List.mem_append.mp hp1 with hp2 | hp2
  · rcases hpe with rfl | rfl | rfl <;> simp at hp2 <;> omega
  rcases List.mem_cons.mp hp2 with rfl | hp3
  · omega
  rcases List.mem_append.mp hp3 with h | h
  · exact le_trans (hlb p h) (by omega)
  · exact htl p h

lemma preRun_progress (fs : List AudioFile) (merge tOnly : Bool) (env : Env) :
    ((preRun fs merge tOnly env).failed = false →
      List.Chain' (· ≤ ·) (preRun fs merge tOnly env).events)
    ∧ ∀ p ∈ (preRun fs merge tOnly env).events, p ≤ 100 := by
  have hpe := planAudio_events_cases merge fs
  cases hres : (planAudio merge fs).result with
  | error e =>
      have hpre : preRun fs merge tOnly env
          = ⟨10 :: ((planAudio merge fs).events ++ [0]), 0, 0, true, false, none⟩ := by
        unfold preRun
        rw [hres]
      rw [hpre]
      refine ⟨fun h => by simp at h, ?_⟩
      intro p hp
      rcases List.mem_cons.mp hp with rfl | hp1
      · omega
      rcases List.mem_append.mp hp1 with hp2 | hp2
      · rcases hpe with he | he | he <;> rw [he] at hp2 <;> simp at hp2 <;> omega
      · simp at hp2
        omega
  | ok items =>
      have hl := transcribeLoop_events env.transcribeFails items.length items.length 0
        (by omega)
      have hlb : ∀ x ∈ (transcribeLoop env.transcribeFails items.length 0 items.length).1,
          25 ≤ x ∧ x ≤ 80 :=
        fun x hx => ⟨by simpa using (hl.2 x hx).1, (hl.2 x hx).2⟩
      by_cases hx : (exportLoop env.exportFails 0 (tempCount items)).2.2 = false
      · have hpre : preRun fs merge tOnly env
            = ⟨10 :: ((planAudio merge fs).events ++ [0]),
               (exportLoop env.exportFails 0 (tempCount items)).1,
               (exportLoop env.exportFails 0 (tempCount items)).2.1,
               true, false, none⟩ := by
          unfold preRun
          rw [hres]
          simp [hx]
        rw [hpre]
        refine ⟨fun h => by simp at h, ?_⟩
        intro p hp
        rcases List.mem_cons.mp hp with rfl | hp1
        · omega
        rcases List.mem_append.mp hp1 with hp2 | hp2
        · rcases hpe with he | he | he <;> rw [he] at hp2 <;> simp at hp2 <;> omega
        · simp at hp2
          omega
      · by_cases h1 :
            (transcribeLoop env.transcribeFails items.length 0 items.length).2 = false
        · have hpre : preRun fs merge tOnly env
              = ⟨10 :: ((planAudio merge fs).events
                  ++ 25 :: ((transcribeLoop env.transcribeFails items.length 0
                      items.length).1 ++ [0])),
                 (exportLoop env.exportFails 0 (tempCount items)).1,
                 (exportLoop env.exportFails 0 (tempCount items)).2.1,
                 true, false, none⟩ := by
            unfold preRun
            rw [hres]
            simp [hx, h1]
          rw [hpre]
          refine ⟨fun h => by simp at h, ?_⟩
          exact events_bound (planAudio merge fs).events _ [0] hpe
            (fun x hx => (hlb x hx).2) (by decide)
        · by_cases h2 : tOnly
          · have hpre : preRun fs merge tOnly env
                = ⟨10 :: ((planAudio merge fs).events
                    ++ 25 :: ((transcribeLoop env.transcribeFails items.length 0
                        items.length).1 ++ [80, 100])),
                   (exportLoop env.exportFails 0 (tempCount items)).1,
                   (exportLoop env.exportFails 0 (tempCount items)).2.1,
                   false, true,
                   if env.saveTranscriptionFails then none
                   else some (exportLoop env.exportFails 0 (tempCount items)).2.1⟩ := by
              unfold preRun
              rw [hres]
              simp [hx, h1, h2]
            rw [hpre]
            refine ⟨fun _ => ?_, ?_⟩
            · exact events_chain (planAudio merge fs).events _ [80, 100] hpe hl.1 hlb
                (Or.inl rfl)
            · exact events_bound (planAudio merge fs).events _ [80, 100] hpe
                (fun x hx => (hlb x hx).2) (by decide)
          · by_cases h3 : env.summarizeFails
            · have hpre : preRun fs merge tOnly env
                  = ⟨10 :: ((planAudio merge fs).events
                      ++ 25 :: ((transcribeLoop env.transcribeFails items.length 0
                          items.length).1 ++ [80, 0])),
                     (exportLoop env.exportFails 0 (tempCount items)).1,
                     (exportLoop env.exportFails 0 (tempCount items)).2.1,
                     true, false,
                     if env.saveTranscriptionFails then none
                     else some (exportLoop env.exportFails 0 (tempCount items)).2.1⟩ := by
                unfold preRun
                rw [hres]
                simp [hx, h1, h2, h3]
              rw [hpre]
              refine ⟨fun h => by simp at h, ?_⟩
              exact events_bound (planAudio merge fs).events _ [80, 0] hpe
                (fun x hx => (hlb x hx).2) (by decide)
            · have hpre : preRun fs merge tOnly env
                  = ⟨10 :: ((planAudio merge fs).events
                      ++ 25 :: ((transcribeLoop env.transcribeFails items.length 0
                          items.length).1 ++ [80, 90, 100])),
                     (exportLoop env.exportFails 0 (tempCount items)).1,
                     (exportLoop env.exportFails 0 (tempCount items)).2.1,
                     false, true,
                     if env.saveTranscriptionFails then none
                     else some (exportLoop env.exportFails 0 (tempCount items)).2.1⟩ := by
                unfold preRun
                rw [hres]
                simp [hx, h1, h2, h3]
              rw [hpre]
              refine ⟨fun _ => ?_, ?_⟩
              · exact events_chain (planAudio merge fs).events _ [80, 90, 100] hpe hl.1
                  hlb (Or.inr rfl)
              · exact events_bound (planAudio merge fs).events _ [80, 90, 100] hpe
                  (fun x hx => (hlb x hx).2) (by decide)

/-- C9 counterexample: in a run where the only transcription call fails, the
emitted progress sequence is `[10, 25, 25, 0]` — the error handler emits a
final `0` (line 286), so the sequence is not monotonically increasing (and
`25` repeats even before the failure). -/
theorem C9_counterexample :
    ¬ List.Chain' (· ≤ ·)
      (run [⟨"a.mp3", 100, 1000⟩] true false
        ⟨fun _ => false, fun _ => true, false, false, fun _ => false⟩).progressEvents := by
  have h : (run [⟨"a.mp3", 100, 1000⟩] true false
      ⟨fun _ => false, fun _ => true, false, false, fun _ => false⟩).progressEvents
      = [10, 25, 25, 0] := rfl
  rw [h]
  intro hc
  have h25 := List.chain'_cons.mp (List.chain'_cons.mp (List.chain'_cons.mp hc).2).2
  omega

/-- C9 (amended): every emitted progress value is an integer in 0..100, and
on every run that does not end in an error the sequence is monotonically
non-decreasing (consecutive values can repeat); on a failed run the final
reset to `0` (line 286) breaks monotonicity. -/
theorem C9_amended_progress (fs : List AudioFile) (merge tOnly : Bool) (env : Env) :
    ((run fs merge tOnly env).errorEmitted = false →
      List.Chain' (· ≤ ·) (run fs merge tOnly env).progressEvents)
    ∧ ∀ p ∈ (run fs merge tOnly env).progressEvents, p ≤ 100 :=
  preRun_progress fs merge tOnly env

theorem C9_amended_progress_witness :
    List.Chain' (· ≤ ·)
      (run [⟨"a.mp3", 100, 1000⟩] true false envAllOk).progressEvents :=
  (C9_amended_progress [⟨"a.mp3", 100, 1000⟩] true false envAllOk).1 rfl
